import Mathlib

/-!
Verification of the Azure DevOps PR Review Analyzer core pipeline
(`src/main.py`): identity/date normalization, vote classification,
review record extraction, aggregation rollups and report assembly,
shallowly embedded as executable Lean definitions.
-/

namespace PRAnalyzer

/-- A naive datetime value, as produced by Python's
`datetime.fromisoformat` (timezone offsets are parsed and discarded;
no claim compares aware datetimes). -/
structure DateTime where
  year : Nat
  month : Nat
  day : Nat
  hour : Nat
  minute : Nat
  second : Nat
  microsecond : Nat
deriving DecidableEq, Repr

/-- Review decision, derived from the numeric vote code. -/
inductive Decision where
  | Approved
  | Rejected
deriving DecidableEq, Repr

/-- The string label pandas groups by (`"Approved" if vote > 0 else "Rejected"`). -/
def Decision.label : Decision → String
  | .Approved => "Approved"
  | .Rejected => "Rejected"

/-- `str.replace("Z", "")`: remove every occurrence of the character Z. -/
def stripZ (s : String) : String :=
  ⟨s.data.filter (fun c => c != 'Z')⟩

/-- Python's `str.lower()`, character by character (identities here are
e-mail addresses; the ASCII range is what matters). -/
def toLowerStr (s : String) : String :=
  ⟨s.data.map Char.toLower⟩

/-- Lexicographic `≤` on character lists by code point: Python's string
comparison. -/
def lexLe : List Char → List Char → Bool
  | [], _ => true
  | _ :: _, [] => false
  | a :: as, b :: bs => if a = b then lexLe as bs else decide (a < b)

/-- Python's `s1 <= s2` on strings. -/
def strLe (a b : String) : Bool :=
  lexLe a.data b.data

/-- Two decimal digits, consumed from the front. -/
def take2 (cs : List Char) : Option (Nat × List Char) :=
  match cs with
  | c1 :: c2 :: rest =>
    if c1.isDigit && c2.isDigit then
      some ((c1.toNat - 48) * 10 + (c2.toNat - 48), rest)
    else none
  | _ => none

/-- Four decimal digits, consumed from the front. -/
def take4 (cs : List Char) : Option (Nat × List Char) :=
  match take2 cs with
  | some (a, r) =>
    match take2 r with
    | some (b, r2) => some (a * 100 + b, r2)
    | none => none
  | none => none

def isLeapYear (y : Nat) : Bool :=
  y % 4 == 0 && (y % 100 != 0 || y % 400 == 0)

def daysInMonth (y m : Nat) : Nat :=
  if m == 2 then (if isLeapYear y then 29 else 28)
  else if m == 4 || m == 6 || m == 9 || m == 11 then 30
  else 31

/-- Numeric value of a digit string. -/
def digitsVal (cs : List Char) : Nat :=
  cs.foldl (fun a c => a * 10 + (c.toNat - 48)) 0

/-- Microseconds from a fractional-seconds digit run (first six digits,
right-padded with zeros). -/
def usecOfFrac (ds : List Char) : Nat :=
  digitsVal (ds.take 6 ++ List.replicate (6 - ds.length) '0')

/-- An optional trailing UTC offset `±HH:MM`; parsed for acceptance and
discarded (the pipeline never uses timezone information). -/
def offsetOk (cs : List Char) : Bool :=
  match cs with
  | [] => true
  | c :: rest =>
    (c == '+' || c == '-') &&
    (match take2 rest with
     | some (h, r1) =>
       (match r1 with
        | ':' :: r2 =>
          (match take2 r2 with
           | some (m, r3) => r3.isEmpty && decide (h ≤ 23) && decide (m ≤ 59)
           | none => false)
        | _ => false)
     | none => false)

/-- The time-of-day tail `HH:MM[:SS[.ffff]][±HH:MM]` of an ISO timestamp. -/
def parseTimePart (y mo d : Nat) (cs : List Char) : Option DateTime :=
  match take2 cs with
  | none => none
  | some (h, r1) =>
    if h > 23 then none
    else
      match r1 with
      | ':' :: r2 =>
        match take2 r2 with
        | none => none
        | some (mi, r3) =>
          if mi > 59 then none
          else
            match r3 with
            | ':' :: r4 =>
              match take2 r4 with
              | none => none
              | some (se, r5) =>
                if se > 59 then none
                else
                  match r5 with
                  | '.' :: r =>
                    let ds := r.takeWhile Char.isDigit
                    if ds.isEmpty then none
                    else if offsetOk (r.drop ds.length) then
                      some ⟨y, mo, d, h, mi, se, usecOfFrac ds⟩
                    else none
                  | rest =>
                    if offsetOk rest then some ⟨y, mo, d, h, mi, se, 0⟩
                    else none
            | rest =>
              if offsetOk rest then some ⟨y, mo, d, h, mi, 0, 0⟩
              else none
      | _ => none

/-- Model of Python's `datetime.fromisoformat`: a four-digit year,
dashes, a valid calendar date, optionally a `T`/space separator and a
time of day; fails (raising `ValueError`, modelled as `none`) on
anything else, in particular on the empty string. -/
def fromisoformat (s : String) : Option DateTime :=
  match take4 s.data with
  | none => none
  | some (y, r1) =>
    match r1 with
    | '-' :: r2 =>
      (match take2 r2 with
       | none => none
       | some (mo, r3) =>
         match r3 with
         | '-' :: r4 =>
           (match take2 r4 with
            | none => none
            | some (d, r5) =>
              if mo < 1 || 12 < mo || d < 1 || daysInMonth y mo < d then none
              else
                match r5 with
                | [] => some ⟨y, mo, d, 0, 0, 0, 0⟩
                | sep :: r6 =>
                  if sep == 'T' || sep == ' ' then parseTimePart y mo d r6
                  else none)
         | _ => none)
    | _ => none

/-- `parse_date` from `src/main.py`: `None`/empty input yields `None`;
otherwise strip `Z` and attempt `fromisoformat`, absorbing the
`ValueError` into `None`. -/
def parse_date (dateStr : Option String) : Option DateTime :=
  match dateStr with
  | none => none
  | some s => if s = "" then none else fromisoformat (stripZ s)

def pad2 (n : Nat) : String :=
  if n < 10 then "0" ++ toString n else toString n

def pad4 (n : Nat) : String :=
  if n < 10 then "000" ++ toString n
  else if n < 100 then "00" ++ toString n
  else if n < 1000 then "0" ++ toString n
  else toString n

/-- `strftime("%Y-%m-%d")`. -/
def fmtYMD (d : DateTime) : String :=
  pad4 d.year ++ "-" ++ pad2 d.month ++ "-" ++ pad2 d.day

/-- `strftime("%Y-%m")`, the month bucket. -/
def fmtYM (d : DateTime) : String :=
  pad4 d.year ++ "-" ++ pad2 d.month

/-- `date_in_range` from `src/main.py`: false on `None`, otherwise a
lexical inclusive comparison of the `YYYY-MM-DD` rendering. -/
def date_in_range (date : Option DateTime) (start endDate : String) : Bool :=
  match date with
  | none => false
  | some d => strLe start (fmtYMD d) && strLe (fmtYMD d) endDate

/-- The vote classification of lines 138-142 of `src/main.py`: votes
outside `(10, 5, -10)` are filtered out; surviving votes map to
Approved when positive, else Rejected. -/
def classifyVote (vote : Int) : Option Decision :=
  if vote = 10 ∨ vote = 5 ∨ vote = -10 then
    some (if vote > 0 then .Approved else .Rejected)
  else none

/-- A reviewer entry of a pull request, as returned by the remote API.
`none` models an absent JSON key (the API omits `reviewedDate` for
entries not yet reviewed). -/
structure ReviewerEntry where
  uniqueName : Option String
  vote : Option Int
  reviewedDate : Option String
deriving DecidableEq, Repr

/-- A fetched pull request. `pullRequestId`, `title` and
`createdBy.displayName` are accessed unconditionally in the source
(mandatory keys); `creationDate` and `reviewers` through `.get`. -/
structure PullRequest where
  pullRequestId : Nat
  title : String
  creationDate : Option String
  createdByDisplayName : String
  reviewers : List ReviewerEntry
deriving DecidableEq, Repr

/-- The `--date-mode` choice. -/
inductive DateMode where
  | creation
  | review
deriving DecidableEq, Repr

/-- The run configuration consumed by the core (repository selection and
credentials live in the out-of-scope fetching layer). -/
structure Config where
  reviewers : List String
  start : String
  endDate : String
  dateMode : DateMode
deriving DecidableEq, Repr

/-- One already-fetched repository: its name with its pull requests. -/
structure RepoData where
  name : String
  prs : List PullRequest
deriving DecidableEq, Repr

/-- A row of the `rows` list (NormalizedReviewRecord). -/
structure Row where
  repository : String
  prId : Nat
  title : String
  reviewer : String
  decision : Decision
  decisionDate : DateTime
  prCreatedDate : Option String
  createdBy : String
  monthBucket : String
deriving DecidableEq, Repr

/-- A row of the `raw_rows` list (RawAuditRecord). -/
structure RawRow where
  repository : String
  prId : Nat
  reviewer : String
  vote : Int
  reviewedDate : Option String
  prCreatedDate : Option String
deriving DecidableEq, Repr

/-- The `check_date` expression of lines 144-150 of `src/main.py`.
`reviewer.get("reviewedDate", pr.get("creationDate"))` falls back to the
creation date exactly when the `reviewedDate` key is absent. -/
def computeCheckDate (mode : DateMode) (creationDate reviewedDate : Option String) :
    Option DateTime :=
  match mode with
  | .creation => parse_date creationDate
  | .review =>
    match reviewedDate with
    | some s => parse_date (some s)
    | none => parse_date creationDate

/-- The body of the inner reviewer loop of `main` (lines 120-169):
always build the raw audit row; build a normalized row only when the
lower-cased identity is configured, the vote classifies, and the check
date is in range. -/
def processEntry (lowReviewers : List String) (cfg : Config) (repoName : String)
    (pr : PullRequest) (rv : ReviewerEntry) : RawRow × Option Row :=
  let email := toLowerStr (rv.uniqueName.getD "")
  let vote := rv.vote.getD 0
  let raw : RawRow :=
    { repository := repoName
      prId := pr.pullRequestId
      reviewer := email
      vote := vote
      reviewedDate := rv.reviewedDate
      prCreatedDate := pr.creationDate }
  let norm : Option Row :=
    if email ∈ lowReviewers then
      match classifyVote vote with
      | none => none
      | some decision =>
        match computeCheckDate cfg.dateMode pr.creationDate rv.reviewedDate with
        | none => none
        | some d =>
          if date_in_range (some d) cfg.start cfg.endDate then
            some
              { repository := repoName
                prId := pr.pullRequestId
                title := pr.title
                reviewer := email
                decision := decision
                decisionDate := d
                prCreatedDate := pr.creationDate
                createdBy := pr.createdByDisplayName
                monthBucket := fmtYM d }
          else none
    else none
  (raw, norm)

/-- The extraction pass of `main`: per repository, per PR, per reviewer
entry, accumulate raw audit rows (one each, unconditionally) and
normalized rows (at most one each). -/
def extract (cfg : Config) (repos : List RepoData) : List RawRow × List Row :=
  let lowReviewers := cfg.reviewers.map toLowerStr
  (repos.flatMap fun rd =>
     rd.prs.flatMap fun pr =>
       pr.reviewers.map fun rv => (processEntry lowReviewers cfg rd.name pr rv).1,
   repos.flatMap fun rd =>
     rd.prs.flatMap fun pr =>
       pr.reviewers.filterMap fun rv => (processEntry lowReviewers cfg rd.name pr rv).2)

/-- One step of the `reviewer_summary` defaultdict update: increment the
(Approved, Rejected) pair for `email`, inserting a fresh zero pair at
the end on first touch (dict insertion order). -/
def summaryInc (s : List (String × Nat × Nat)) (email : String) (d : Decision) :
    List (String × Nat × Nat) :=
  match s with
  | [] =>
    [(email, match d with | .Approved => (1, 0) | .Rejected => (0, 1))]
  | (e, a, r) :: rest =>
    if e = email then
      (e, match d with | .Approved => (a + 1, r) | .Rejected => (a, r + 1)) :: rest
    else (e, a, r) :: summaryInc rest email d

/-- The final state of `reviewer_summary`: the increments happen exactly
at each normalized-row append, in order, with the row's reviewer and
decision. -/
def buildSummary (rows : List Row) : List (String × Nat × Nat) :=
  rows.foldl (fun s r => summaryInc s r.reviewer r.decision) []

/-- Look up a reviewer's (Approved, Rejected) counts in the summary. -/
def summaryGet (s : List (String × Nat × Nat)) (email : String) : Option (Nat × Nat) :=
  match s with
  | [] => none
  | (e, c) :: rest => if e = email then some c else summaryGet rest email

/-- Insert a string into a sorted list of strings. -/
def insertSorted (x : String) : List String → List String
  | [] => [x]
  | y :: ys => if strLe x y then x :: y :: ys else y :: insertSorted x ys

/-- Sort strings lexicographically (pandas groupby sorts its keys). -/
def sortStrings : List String → List String
  | [] => []
  | x :: xs => insertSorted x (sortStrings xs)

/-- The sorted distinct month buckets of the normalized rows: the index
of `df.groupby(["Month", "Decision"]).size().unstack(fill_value=0)`. -/
def occurringMonths (rows : List Row) : List String :=
  (sortStrings (rows.map fun r => r.monthBucket)).dedup

/-- The decision kinds occurring in the rows, in pandas column order
(sorted by label, `"Approved" < "Rejected"`): `unstack` creates a
column only for each observed `Decision` value. -/
def occurringDecisions (rows : List Row) : List Decision :=
  (if rows.any fun r => r.decision == .Approved then [Decision.Approved] else []) ++
  (if rows.any fun r => r.decision == .Rejected then [Decision.Rejected] else [])

/-- The count in one cell of the monthly rollup, `fill_value=0`
included. -/
def monthCount (rows : List Row) (m : String) (d : Decision) : Nat :=
  (rows.filter fun r => r.monthBucket == m && r.decision == d).length

/-- The monthly rollup table: one row per distinct month, one cell per
observed decision kind. -/
def monthlyTable (rows : List Row) : List (String × List (Decision × Nat)) :=
  (occurringMonths rows).map fun m =>
    (m, (occurringDecisions rows).map fun d => (d, monthCount rows m d))

/-- The sorted distinct calendar days (`Decision Date .dt.date`) of the
normalized rows. -/
def occurringDays (rows : List Row) : List String :=
  (sortStrings (rows.map fun r => fmtYMD r.decisionDate)).dedup

/-- The count in one cell of the daily rollup. -/
def dayCount (rows : List Row) (day : String) (d : Decision) : Nat :=
  (rows.filter fun r => fmtYMD r.decisionDate == day && r.decision == d).length

/-- The daily rollup table used for the chart. -/
def dailyTable (rows : List Row) : List (String × List (Decision × Nat)) :=
  (occurringDays rows).map fun day =>
    (day, (occurringDecisions rows).map fun d => (d, dayCount rows day d))

/-- The two lines printed on the zero-result early return. -/
def noDataNotice : String :=
  "No PR review data matched the given filters. Excel file will NOT be generated."

/-- Observable outcome of a run: either the early no-data return (an
operator notice, nothing written) or a written report (the four Excel
sheets plus the optional daily chart). -/
inductive RunResult where
  | noData (notice : String)
  | report (allPRs : List Row) (monthly : List (String × List (Decision × Nat)))
      (reviewerTab : List (String × Nat × Nat)) (rawData : List RawRow)
      (chart : Option (List (String × List (Decision × Nat))))
deriving DecidableEq, Repr

/-- The report-assembly tail of `main` (lines 177-222): if no normalized
rows were produced, print the notice and return before any write;
otherwise write the four sheets and, when the daily rollup is nonempty,
the chart. -/
def run (cfg : Config) (repos : List RepoData) : RunResult :=
  let rows := (extract cfg repos).2
  if rows.isEmpty then .noData noDataNotice
  else
    let daily := dailyTable rows
    .report rows (monthlyTable rows) (buildSummary rows) (extract cfg repos).1
      (if daily.isEmpty then none else some daily)

/-! ### Concrete inputs used by scenario conjuncts and witnesses -/

/-- Reviewer A of the two-reviewer scenario: configured, votes 10,
reviewed date inside the range. -/
def rvA : ReviewerEntry := ⟨some "Alice@Co.com", some 10, some "2024-01-15T12:00:00Z"⟩

/-- Reviewer B of the two-reviewer scenario: not configured, votes 0. -/
def rvB : ReviewerEntry := ⟨some "bob@co.com", some 0, none⟩

/-- The scenario pull request carrying both reviewer entries. -/
def prAB : PullRequest := ⟨1, "T", some "2024-01-05T08:00:00Z", "Bob", [rvA, rvB]⟩

/-- The scenario configuration: reviewers=[A], January 2024, review mode. -/
def cfgAB : Config := ⟨["Alice@Co.com"], "2024-01-01", "2024-01-31", .review⟩

/-- The scenario input: one repository holding the scenario PR. -/
def reposAB : List RepoData := [⟨"RepoX", [prAB]⟩]

/-- The vote-5 entry of the missing-reviewed-date scenario. -/
def rvC2 : ReviewerEntry := ⟨some "Alice@Co.com", some 5, none⟩

/-- The PR of the missing-reviewed-date scenario, created inside the
range. -/
def prC2 : PullRequest := ⟨4, "T4", some "2024-01-05T08:00:00Z", "Bob", [rvC2]⟩

/-- An entry whose identity key is absent from the API response. -/
def rvNoName : ReviewerEntry := ⟨none, some 10, some "2024-01-15T12:00:00Z"⟩

/-- A PR carrying the identity-less entry. -/
def prNoName : PullRequest := ⟨2, "T2", some "2024-01-05T08:00:00Z", "Bob", [rvNoName]⟩

/-- A configuration whose reviewer list contains the empty string. -/
def cfgEmptyStr : Config := ⟨[""], "2024-01-01", "2024-01-31", .review⟩

/-- An entry whose vote key is absent from the API response. -/
def rvNoVote : ReviewerEntry := ⟨some "carol@co.com", none, none⟩

/-- A PR mixing a mixed-case identity with a vote-less entry. -/
def prC10 : PullRequest := ⟨3, "T3", some "2024-01-05T08:00:00Z", "Bob", [rvA, rvNoVote]⟩

/-- The repository input for the raw-audit field checks. -/
def reposC10 : List RepoData := [⟨"RepoY", [prC10]⟩]

/-- The normalized row produced by reviewer A in the two-reviewer
scenario. -/
def rowAlice : Row :=
  ⟨"RepoX", 1, "T", "alice@co.com", .Approved, ⟨2024, 1, 15, 12, 0, 0, 0⟩,
   some "2024-01-05T08:00:00Z", "Bob", "2024-01"⟩

/-- A rejected row in a different month, for exercising zero-fill. -/
def rowReject : Row :=
  ⟨"RepoX", 2, "T2", "alice@co.com", .Rejected, ⟨2024, 2, 3, 10, 0, 0, 0⟩,
   some "2024-02-01T08:00:00Z", "Bob", "2024-02"⟩

/-- Totals of reviewer entries across all fetched repositories. -/
def totalEntries (repos : List RepoData) : Nat :=
  (repos.map fun rd => (rd.prs.map fun pr => pr.reviewers.length).sum).sum

/-! ### Helper lemmas -/

theorem length_flatMap_eq {α β : Type} (l : List α) (f : α → List β) :
    (l.flatMap f).length = (l.map fun a => (f a).length).sum := by
  induction l with
  | nil => rfl
  | cons a l ih => simp [List.flatMap_cons, ih]

theorem toLowerStr_eq_empty {r : String} (h : toLowerStr r = "") : r = "" := by
  have hd : r.data.map Char.toLower = [] := congrArg String.data h
  have hnil : r.data = [] := List.map_eq_nil_iff.mp hd
  cases r
  simp_all

theorem classifyVote_eq_none (v : Int) :
    classifyVote v = none ↔ ¬(v = 10 ∨ v = 5 ∨ v = -10) := by
  constructor
  · intro hc hmem
    unfold classifyVote at hc
    rw [if_pos hmem] at hc
    exact Option.noConfusion hc
  · intro h
    unfold classifyVote
    rw [if_neg h]

theorem classifyVote_eq_approved (v : Int) :
    classifyVote v = some Decision.Approved ↔ v = 10 ∨ v = 5 := by
  by_cases h : v = 10 ∨ v = 5 ∨ v = -10
  · rcases h with h | h | h <;> subst h <;> decide
  · rw [(classifyVote_eq_none v).mpr h]
    constructor
    · intro hc
      exact absurd hc.symm (Option.some_ne_none _)
    · intro hc
      exact absurd (Or.elim hc Or.inl (fun h5 => Or.inr (Or.inl h5))) h

theorem classifyVote_eq_rejected (v : Int) :
    classifyVote v = some Decision.Rejected ↔ v = -10 := by
  by_cases h : v = 10 ∨ v = 5 ∨ v = -10
  · rcases h with h | h | h <;> subst h <;> decide
  · rw [(classifyVote_eq_none v).mpr h]
    constructor
    · intro hc
      exact absurd hc.symm (Option.some_ne_none _)
    · intro hc
      exact absurd (Or.inr (Or.inr hc)) h

/-- Elimination form of the inner-loop body: a normalized row is
produced only by the innermost branch, and is exactly the record built
there. -/
theorem processEntry_snd_eq_some_iff (lr : List String) (cfg : Config) (rn : String)
    (pr : PullRequest) (rv : ReviewerEntry) (row0 : Row) :
    (processEntry lr cfg rn pr rv).2 = some row0 ↔
      toLowerStr (rv.uniqueName.getD "") ∈ lr ∧
      ∃ dec d, classifyVote (rv.vote.getD 0) = some dec ∧
        computeCheckDate cfg.dateMode pr.creationDate rv.reviewedDate = some d ∧
        date_in_range (some d) cfg.start cfg.endDate = true ∧
        row0 = { repository := rn, prId := pr.pullRequestId, title := pr.title,
                 reviewer := toLowerStr (rv.uniqueName.getD ""), decision := dec,
                 decisionDate := d, prCreatedDate := pr.creationDate,
                 createdBy := pr.createdByDisplayName, monthBucket := fmtYM d } := by
  unfold processEntry
  dsimp only
  constructor
  · intro h
    split_ifs at h with hmem
    · refine ⟨hmem, ?_⟩
      split at h
      next => exact Option.noConfusion h
      next dec hc =>
        split at h
        next => exact Option.noConfusion h
        next d hd =>
          split_ifs at h with hr
          exact ⟨dec, d, hc, hd, hr, (Option.some_inj.mp h).symm⟩
  · rintro ⟨hmem, dec, d, hc, hd, hr, hrow⟩
    rw [if_pos hmem]
    simp only [hc, hd]
    rw [if_pos hr, hrow]

/-! ### Claims -/

/-- C1: the vote classifier yields Approved exactly for vote codes 10
and 5, Rejected exactly for -10, and no decision for every other
integer; an entry whose vote yields no decision produces no
NormalizedReviewRecord. -/
theorem C1_vote_classifier :
    (∀ v : Int,
      (classifyVote v = some Decision.Approved ↔ v = 10 ∨ v = 5) ∧
      (classifyVote v = some Decision.Rejected ↔ v = -10) ∧
      (¬(v = 10 ∨ v = 5 ∨ v = -10) → classifyVote v = none)) ∧
    (∀ (lr : List String) (cfg : Config) (rn : String) (pr : PullRequest)
        (rv : ReviewerEntry),
      classifyVote (rv.vote.getD 0) = none → (processEntry lr cfg rn pr rv).2 = none) := by
  constructor
  · intro v
    exact ⟨classifyVote_eq_approved v, classifyVote_eq_rejected v,
      fun h => (classifyVote_eq_none v).mpr h⟩
  · intro lr cfg rn pr rv hc
    cases h : (processEntry lr cfg rn pr rv).2 with
    | none => rfl
    | some row0 =>
      obtain ⟨-, dec, d, hc2, -⟩ := (processEntry_snd_eq_some_iff lr cfg rn pr rv row0).mp h
      rw [hc] at hc2
      cases hc2

/-- C1 witness: vote code 0 (reviewer B) yields no decision, and B's
entry on the scenario PR produces no normalized row. -/
theorem C1_vote_classifier_witness :
    (processEntry (cfgAB.reviewers.map toLowerStr) cfgAB "RepoX" prAB rvB).2 = none :=
  C1_vote_classifier.2 (cfgAB.reviewers.map toLowerStr) cfgAB "RepoX" prAB rvB (by decide)

/-- C6: null, empty and unparseable timestamps all parse to `none`
(without raising), and range filtering on `none` is `false` (without
raising). -/
theorem C6_malformed_timestamps :
    parse_date none = none ∧
    parse_date (some "") = none ∧
    (∀ s : String, fromisoformat (stripZ s) = none → parse_date (some s) = none) ∧
    (∀ st en : String, date_in_range none st en = false) := by
  refine ⟨rfl, rfl, ?_, fun st en => rfl⟩
  intro s h
  show (if s = "" then none else fromisoformat (stripZ s)) = none
  split_ifs with he
  · rfl
  · exact h

/-- C6 witness: a concretely malformed timestamp is non-fatally dropped
by the parser and the range filter. -/
theorem C6_malformed_timestamps_witness :
    parse_date (some "not-a-date") = none ∧ date_in_range none "2024-01-01" "2024-01-31" = false :=
  ⟨C6_malformed_timestamps.2.2.1 "not-a-date" (by decide),
   C6_malformed_timestamps.2.2.2 "2024-01-01" "2024-01-31"⟩

theorem stripZ_append_Z (t : String) : stripZ (t ++ "Z") = stripZ t := by
  unfold stripZ
  have hdata : (t ++ "Z").data = t.data ++ ['Z'] := rfl
  rw [hdata, List.filter_append]
  simp

theorem append_Z_ne_empty (t : String) : t ++ "Z" ≠ "" := by
  intro h
  have hdata : (t ++ "Z").data = t.data ++ ['Z'] := rfl
  have : t.data ++ ['Z'] = ([] : List Char) := by rw [← hdata, h]
  simp at this

/-- C8: appending a trailing Z designator never changes the result of
`parse_date`, including the `none` result. -/
theorem C8_trailing_Z (t : String) :
    parse_date (some (t ++ "Z")) = parse_date (some t) := by
  show (if t ++ "Z" = "" then none else fromisoformat (stripZ (t ++ "Z"))) =
    (if t = "" then none else fromisoformat (stripZ t))
  by_cases he : t = ""
  · subst he
    rw [if_neg (append_Z_ne_empty ""), if_pos rfl]
    rfl
  · rw [if_neg (append_Z_ne_empty t), if_neg he, stripZ_append_Z]

/-- C2: under date-mode creation the check date is always the parsed PR
creation timestamp; under date-mode review it is the parsed reviewed
timestamp, falling back to the parsed creation timestamp when the
reviewed timestamp is absent; a configured entry with vote 5, missing
reviewed date and in-range creation date yields a record whose decision
date is the creation date. -/
theorem C2_check_date :
    (∀ c r : Option String, computeCheckDate .creation c r = parse_date c) ∧
    (∀ (c : Option String) (s : String),
      computeCheckDate .review c (some s) = parse_date (some s)) ∧
    (∀ c : Option String, computeCheckDate .review c none = parse_date c) ∧
    (∀ (lr : List String) (cfg : Config) (rn : String) (pr : PullRequest)
        (rv : ReviewerEntry) (d : DateTime),
      cfg.dateMode = .review → rv.vote = some 5 → rv.reviewedDate = none →
      toLowerStr (rv.uniqueName.getD "") ∈ lr →
      parse_date pr.creationDate = some d →
      date_in_range (some d) cfg.start cfg.endDate = true →
      ((processEntry lr cfg rn pr rv).2.map fun r => r.decisionDate) = some d) := by
  refine ⟨fun c r => rfl, fun c s => rfl, fun c => rfl, ?_⟩
  intro lr cfg rn pr rv d hmode hvote hrd hmem hpc hr
  have hc : classifyVote (rv.vote.getD 0) = some Decision.Approved := by
    rw [hvote]
    decide
  have hd : computeCheckDate cfg.dateMode pr.creationDate rv.reviewedDate = some d := by
    rw [hmode, hrd]
    exact hpc
  rw [(processEntry_snd_eq_some_iff lr cfg rn pr rv _).mpr
    ⟨hmem, Decision.Approved, d, hc, hd, hr, rfl⟩]
  rfl

/-- C2 witness: the concrete vote-5, reviewed-date-less entry produces
a record dated at the PR creation timestamp. -/
theorem C2_check_date_witness :
    ((processEntry (cfgAB.reviewers.map toLowerStr) cfgAB "RepoX" prC2 rvC2).2.map
      fun r => r.decisionDate) = some ⟨2024, 1, 5, 8, 0, 0, 0⟩ :=
  C2_check_date.2.2.2 (cfgAB.reviewers.map toLowerStr) cfgAB "RepoX" prC2 rvC2
    ⟨2024, 1, 5, 8, 0, 0, 0⟩ rfl rfl rfl (by decide) (by decide) (by decide)

/-- C3: exactly one raw audit record per reviewer entry seen, before
any filtering; at most one normalized record per entry; and in the
two-reviewer scenario the output is one normalized record (A,
Approved), two raw records, and summary A = (1 Approved, 0 Rejected). -/
theorem C3_one_raw_per_entry :
    (∀ (cfg : Config) (repos : List RepoData),
      (extract cfg repos).1.length = totalEntries repos ∧
      (extract cfg repos).2.length ≤ totalEntries repos) ∧
    ((extract cfgAB reposAB).1.length = 2 ∧
     ((extract cfgAB reposAB).2.map fun r => (r.reviewer, r.decision)) =
       [("alice@co.com", Decision.Approved)] ∧
     summaryGet (buildSummary (extract cfgAB reposAB).2) "alice@co.com" = some (1, 0)) := by
  constructor
  · intro cfg repos
    constructor
    · unfold extract totalEntries
      dsimp only
      rw [length_flatMap_eq]
      congr 1
      apply List.map_congr_left
      intro rd _
      rw [length_flatMap_eq]
      congr 1
      apply List.map_congr_left
      intro pr _
      exact List.length_map _ _
    · unfold extract totalEntries
      dsimp only
      rw [length_flatMap_eq]
      apply List.sum_le_sum
      intro rd _
      rw [length_flatMap_eq]
      apply List.sum_le_sum
      intro pr _
      exact List.length_filterMap_le _ _
  · exact ⟨by decide, by decide, by decide⟩

/-- C5: when zero normalized records were produced, the run ends in the
no-data early return — an operator notice, none of the four tables, no
chart. -/
theorem C5_no_data_early_return :
    ∀ (cfg : Config) (repos : List RepoData),
      (extract cfg repos).2 = [] →
      run cfg repos = RunResult.noData noDataNotice ∧
      ∀ a m rt rw0 ch, run cfg repos ≠ RunResult.report a m rt rw0 ch := by
  intro cfg repos h
  have hrun : run cfg repos = RunResult.noData noDataNotice := by
    unfold run
    dsimp only
    rw [h]
    rfl
  refine ⟨hrun, ?_⟩
  intro a m rt rw0 ch hcontra
  rw [hrun] at hcontra
  exact RunResult.noConfusion hcontra

/-- C5 witness: a run over no repositories produces no records, prints
the notice and writes nothing. -/
theorem C5_no_data_early_return_witness :
    run cfgAB [] = RunResult.noData noDataNotice :=
  (C5_no_data_early_return cfgAB [] rfl).1

/-- C9 counterexample to the claim as stated: with the empty string in
the configured reviewer list, an entry with a missing identity
normalizes to the empty string, matches, and does produce a
NormalizedReviewRecord. -/
theorem C9_counterexample :
    toLowerStr (rvNoName.uniqueName.getD "") = "" ∧
    ((processEntry (cfgEmptyStr.reviewers.map toLowerStr) cfgEmptyStr "RepoX" prNoName
      rvNoName).2).isSome = true ∧
    (extract cfgEmptyStr [⟨"RepoX", [prNoName]⟩]).2.length = 1 := by
  decide

/-- C9 (amended): an entry with empty or missing identity normalizes to
the empty string, and — provided no configured reviewer is the empty
string — never matches a configured reviewer, hence never produces a
NormalizedReviewRecord. -/
theorem C9_empty_identity :
    (∀ rv : ReviewerEntry, (rv.uniqueName = none ∨ rv.uniqueName = some "") →
       toLowerStr (rv.uniqueName.getD "") = "") ∧
    (∀ (cfg : Config) (rn : String) (pr : PullRequest) (rv : ReviewerEntry),
       "" ∉ cfg.reviewers →
       (rv.uniqueName = none ∨ rv.uniqueName = some "") →
       (processEntry (cfg.reviewers.map toLowerStr) cfg rn pr rv).2 = none) := by
  have hempty : ∀ rv : ReviewerEntry, (rv.uniqueName = none ∨ rv.uniqueName = some "") →
      toLowerStr (rv.uniqueName.getD "") = "" := by
    intro rv h
    rcases h with h | h <;> rw [h] <;> rfl
  refine ⟨hempty, ?_⟩
  intro cfg rn pr rv hne hid
  cases hout : (processEntry (cfg.reviewers.map toLowerStr) cfg rn pr rv).2 with
  | none => rfl
  | some row0 =>
    obtain ⟨hmem, -⟩ := (processEntry_snd_eq_some_iff _ _ _ _ _ _).mp hout
    rw [hempty rv hid] at hmem
    obtain ⟨r, hr, hlow⟩ := List.mem_map.mp hmem
    exact absurd (toLowerStr_eq_empty hlow ▸ hr) hne

/-- C9 witness: with a nonempty configured reviewer, the identity-less
entry produces no record. -/
theorem C9_empty_identity_witness :
    (processEntry (cfgAB.reviewers.map toLowerStr) cfgAB "RepoX" prNoName rvNoName).2 = none :=
  C9_empty_identity.2 cfgAB "RepoX" prNoName rvNoName (by decide) (Or.inl rfl)

/-- C10: every raw audit record stores the lower-cased identity (empty
string when the identity key is missing) and the vote defaulted to 0
when missing — not the verbatim API values; concretely, identity
"Alice@Co.com" is stored as "alice@co.com" and a missing vote as 0. -/
theorem C10_raw_record_fields :
    (∀ (cfg : Config) (repos : List RepoData),
      (extract cfg repos).1 = repos.flatMap fun rd => rd.prs.flatMap fun pr =>
        pr.reviewers.map fun rv =>
          { repository := rd.name, prId := pr.pullRequestId,
            reviewer := toLowerStr (rv.uniqueName.getD ""),
            vote := rv.vote.getD 0, reviewedDate := rv.reviewedDate,
            prCreatedDate := pr.creationDate }) ∧
    ((extract cfgAB reposC10).1.map fun rr => (rr.reviewer, rr.vote)) =
      [("alice@co.com", 10), ("carol@co.com", 0)] ∧
    rvA.uniqueName = some "Alice@Co.com" ∧
    ("alice@co.com" : String) ≠ "Alice@Co.com" ∧
    rvNoVote.vote = none := by
  refine ⟨fun cfg repos => rfl, by decide, rfl, by decide, rfl⟩

/-- C4: every normalized record's reviewer is a case-folded member of
the configured reviewer set, its decision is Approved or Rejected, and
its month bucket is the YYYY-MM rendering of its decision date. -/
theorem C4_record_invariants :
    ∀ (cfg : Config) (repos : List RepoData) (row0 : Row),
      row0 ∈ (extract cfg repos).2 →
      row0.reviewer ∈ cfg.reviewers.map toLowerStr ∧
      (row0.decision = Decision.Approved ∨ row0.decision = Decision.Rejected) ∧
      row0.monthBucket = fmtYM row0.decisionDate := by
  intro cfg repos row0 h
  unfold extract at h
  dsimp only at h
  rw [List.mem_flatMap] at h
  obtain ⟨rd, hrd, h⟩ := h
  rw [List.mem_flatMap] at h
  obtain ⟨pr, hpr, h⟩ := h
  rw [List.mem_filterMap] at h
  obtain ⟨rv, hrv, h⟩ := h
  obtain ⟨hmem, dec, d, hc, hd, hr, hrow⟩ := (processEntry_snd_eq_some_iff _ _ _ _ _ _).mp h
  subst hrow
  refine ⟨hmem, ?_, rfl⟩
  cases dec
  · exact Or.inl rfl
  · exact Or.inr rfl

/-- C4 witness: the scenario record satisfies all three invariants. -/
theorem C4_record_invariants_witness :
    rowAlice.reviewer ∈ cfgAB.reviewers.map toLowerStr ∧
    (rowAlice.decision = Decision.Approved ∨ rowAlice.decision = Decision.Rejected) ∧
    rowAlice.monthBucket = fmtYM rowAlice.decisionDate :=
  C4_record_invariants cfgAB reposAB rowAlice (by decide)

theorem mem_insertSorted (y x : String) (l : List String) :
    y ∈ insertSorted x l ↔ y = x ∨ y ∈ l := by
  induction l with
  | nil => simp [insertSorted]
  | cons z zs ih =>
    unfold insertSorted
    split_ifs with h
    · simp
    · simp only [List.mem_cons, ih]
      tauto

theorem mem_sortStrings (y : String) (l : List String) :
    y ∈ sortStrings l ↔ y ∈ l := by
  induction l with
  | nil => simp [sortStrings]
  | cons z zs ih =>
    unfold sortStrings
    rw [mem_insertSorted]
    simp only [List.mem_cons, ih]

theorem map_fst_monthlyTable (rows : List Row) :
    (monthlyTable rows).map Prod.fst = occurringMonths rows := by
  unfold monthlyTable
  rw [List.map_map]
  exact List.map_id _

theorem map_fst_dailyTable (rows : List Row) :
    (dailyTable rows).map Prod.fst = occurringDays rows := by
  unfold dailyTable
  rw [List.map_map]
  exact List.map_id _

theorem mem_monthlyTable_elim (rows : List Row) (m : String)
    (cells : List (Decision × Nat)) (h : (m, cells) ∈ monthlyTable rows) :
    cells = (occurringDecisions rows).map fun d => (d, monthCount rows m d) := by
  unfold monthlyTable at h
  obtain ⟨a, -, heq⟩ := List.mem_map.mp h
  obtain ⟨h1, h2⟩ := Prod.mk.injEq .. ▸ heq
  subst h1
  exact h2.symm

theorem mem_dailyTable_elim (rows : List Row) (day : String)
    (cells : List (Decision × Nat)) (h : (day, cells) ∈ dailyTable rows) :
    cells = (occurringDecisions rows).map fun d => (d, dayCount rows day d) := by
  unfold dailyTable at h
  obtain ⟨a, -, heq⟩ := List.mem_map.mp h
  obtain ⟨h1, h2⟩ := Prod.mk.injEq .. ▸ heq
  subst h1
  exact h2.symm

/-- C7 counterexample to the claim as stated: in the scenario output
every record is Approved, so the monthly and daily tables have no
Rejected column at all — the (2024-01, Rejected) combination is a
missing column, not an explicit zero. -/
theorem C7_counterexample :
    monthlyTable (extract cfgAB reposAB).2 = [("2024-01", [(Decision.Approved, 1)])] ∧
    Decision.Rejected ∉ occurringDecisions (extract cfgAB reposAB).2 ∧
    dailyTable (extract cfgAB reposAB).2 = [("2024-01-15", [(Decision.Approved, 1)])] := by
  decide

/-- C7 (amended): the monthly and daily rollups have exactly one row
per period present in the records, one count column per decision kind
occurring somewhere in the records, and any (present period, occurring
decision) combination with no records carries an explicit zero count. -/
theorem C7_rollups_zero_filled :
    ∀ rows : List Row,
      (((monthlyTable rows).map Prod.fst).Nodup ∧
        ∀ m : String, m ∈ (monthlyTable rows).map Prod.fst ↔
          m ∈ rows.map fun r => r.monthBucket) ∧
      (∀ (m : String) (cells : List (Decision × Nat)), (m, cells) ∈ monthlyTable rows →
        ∀ d : Decision, d ∈ occurringDecisions rows →
          (d, monthCount rows m d) ∈ cells ∧
          ((∀ r ∈ rows, ¬(r.monthBucket = m ∧ r.decision = d)) → (d, 0) ∈ cells)) ∧
      (((dailyTable rows).map Prod.fst).Nodup ∧
        ∀ day : String, day ∈ (dailyTable rows).map Prod.fst ↔
          day ∈ rows.map fun r => fmtYMD r.decisionDate) ∧
      (∀ (day : String) (cells : List (Decision × Nat)), (day, cells) ∈ dailyTable rows →
        ∀ d : Decision, d ∈ occurringDecisions rows →
          (d, dayCount rows day d) ∈ cells ∧
          ((∀ r ∈ rows, ¬(fmtYMD r.decisionDate = day ∧ r.decision = d)) → (d, 0) ∈ cells)) := by
  intro rows
  refine ⟨⟨?_, ?_⟩, ?_, ⟨?_, ?_⟩, ?_⟩
  · rw [map_fst_monthlyTable]
    exact List.nodup_dedup _
  · intro m
    rw [map_fst_monthlyTable]
    unfold occurringMonths
    rw [List.mem_dedup, mem_sortStrings]
  · intro m cells hmc d hd
    have hcells := mem_monthlyTable_elim rows m cells hmc
    subst hcells
    have hmem : (d, monthCount rows m d) ∈
        (occurringDecisions rows).map fun dd => (dd, monthCount rows m dd) :=
      List.mem_map.mpr ⟨d, hd, rfl⟩
    refine ⟨hmem, ?_⟩
    intro hno
    have hzero : monthCount rows m d = 0 := by
      unfold monthCount
      rw [List.length_eq_zero]
      rw [List.filter_eq_nil_iff]
      intro r hr
      simp only [Bool.and_eq_true, beq_iff_eq, decide_eq_true_eq, not_and]
      intro h1 h2
      exact hno r hr ⟨h1, h2⟩
    rw [← hzero]
    exact hmem
  · rw [map_fst_dailyTable]
    exact List.nodup_dedup _
  · intro day
    rw [map_fst_dailyTable]
    unfold occurringDays
    rw [List.mem_dedup, mem_sortStrings]
  · intro day cells hdc d hd
    have hcells := mem_dailyTable_elim rows day cells hdc
    subst hcells
    have hmem : (d, dayCount rows day d) ∈
        (occurringDecisions rows).map fun dd => (dd, dayCount rows day dd) :=
      List.mem_map.mpr ⟨d, hd, rfl⟩
    refine ⟨hmem, ?_⟩
    intro hno
    have hzero : dayCount rows day d = 0 := by
      unfold dayCount
      rw [List.length_eq_zero]
      rw [List.filter_eq_nil_iff]
      intro r hr
      simp only [Bool.and_eq_true, beq_iff_eq, decide_eq_true_eq, not_and]
      intro h1 h2
      exact hno r hr ⟨h1, h2⟩
    rw [← hzero]
    exact hmem

/-- C7 witness: over one Approved January record and one Rejected
February record, the January row carries an explicit (Rejected, 0)
cell. -/
theorem C7_rollups_zero_filled_witness :
    (Decision.Rejected, 0) ∈ [(Decision.Approved, 1), (Decision.Rejected, 0)] :=
  ((C7_rollups_zero_filled [rowAlice, rowReject]).2.1 "2024-01"
    [(Decision.Approved, 1), (Decision.Rejected, 0)] (by decide)
    Decision.Rejected (by decide)).2 (by decide)

end PRAnalyzer
